import Mathlib

/-!
Shallow embedding of the porter parameter-schema system
(src/porter/schema.py and src/porter/fields/treasuremap.py).

The repository code under src/ consists of the schema declarations
(`BaseSchema`, `AliceGetUrsulas`, `BobRetrieveCFrags`) and the
`TreasureMap` field.  The marshmallow load machinery, the field library
`porter.specifications.fields` (PositiveInteger, StringList,
Base64BytesRepresentation, JSON), the `UrsulaChecksumAddress` / `Key` /
`RetrievalKit` decoders and the CLI-to-raw-input assembly are collaborators
of this repository that are not under src/; where a definition models one
of those, its doc comment says so and follows the spec's words.
-/

/-- A raw JSON-style input value, as it arrives in a request payload or from
the CLI parser: an integer, a string, or a list of strings. -/
inductive RawValue
  | int (n : Int)
  | str (s : String)
  | strList (xs : List String)
  deriving DecidableEq, Repr

/-- Raw input to `load`: a mapping from field name to raw value
(a JSON object body, or the mapping the CLI adapter assembles). -/
def RawInput := List (String × RawValue)

instance : DecidableEq RawInput := by
  unfold RawInput
  infer_instance

/-- Why a cross-field rule raised InvalidArgumentCombo: either the quantity
rule's size-mismatch message, or the disjointness rule's message naming the
set of common entries (source builds the message from
`set(include).intersection(exclude)`). -/
inductive ComboReason
  | includeExceedsQuantity
  | commonEntries (common : Finset String)
  deriving DecidableEq

/-- The errors a `load` call can surface: the aggregated per-field error
(`BaseSchema.handle_error` re-raises marshmallow's ValidationError as
InvalidInputData carrying the field-name-to-message mapping), a cross-field
InvalidArgumentCombo, or a dictionary KeyError (reachable in principle from
`data['quantity']` in the first rule). -/
inductive LoadError
  | invalidInputData (errors : List (String × String))
  | invalidArgumentCombo (reason : ComboReason)
  | keyError (key : String)
  deriving DecidableEq

deriving instance DecidableEq for Except

/-- Marshmallow's message for a required field absent from the input. -/
def missingMsg : String := "Missing data for required field."

/-- Per-field outcome of steps 1-2 of the load algorithm: `none` when the
field contributes no error (present and decodable, or absent and optional),
`some msg` when it is a missing required field or its decode fails. -/
def fieldIssue {α : Type} (required : Bool) (decode : RawValue → Except String α)
    (raw : Option RawValue) : Option String :=
  match raw with
  | none => if required then some missingMsg else none
  | some v =>
    match decode v with
    | .error e => some e
    | .ok _ => none

/-- The decoded value a field contributes to the loaded data: `none` when the
field is absent or its decode fails (a failing load never uses it). -/
def fieldValue {α : Type} (decode : RawValue → Except String α)
    (raw : Option RawValue) : Option α :=
  match raw with
  | none => none
  | some v => (decode v).toOption

/-- Modelled from the spec: `PositiveInteger` lives in
`porter.specifications.fields`, which is not under src/; per §3 it is the
Integer field kind, restricted to positive values as its name states. -/
def decodePositiveInteger : RawValue → Except String Nat
  | .int n => if 0 < n then .ok n.toNat else .error "Not a positive integer."
  | _ => .error "Not a valid integer."

/-- Modelled from the spec: `UrsulaChecksumAddress` is an opaque collaborator
decoder for EIP-55 checksum addresses, not under src/ and out of scope per
§6; modelled as accepting the string unchanged. -/
def decodeUrsulaChecksumAddress (s : String) : Except String String := .ok s

/-- Modelled from the spec: `StringList` (porter.specifications.fields, not
under src/) decodes a sequence of raw items by decoding each with the inner
field type, preserving order; a non-sequence raw value fails. -/
def decodeEach (inner : String → Except String String) :
    List String → Except String (List String)
  | [] => .ok []
  | s :: rest =>
    match inner s with
    | .error e => .error e
    | .ok v =>
      match decodeEach inner rest with
      | .error e => .error e
      | .ok vs => .ok (v :: vs)

/-- Modelled from the spec: the `StringList` field applied to a raw value. -/
def decodeStringList (inner : String → Except String String) :
    RawValue → Except String (List String)
  | .strList xs => decodeEach inner xs
  | _ => .error "Not a valid list."

/-- The `StringList(UrsulaChecksumAddress())` field used by both the
include and exclude fields of AliceGetUrsulas. -/
def decodeUrsulaList : RawValue → Except String (List String) :=
  decodeStringList decodeUrsulaChecksumAddress

/-- The loaded field mapping for AliceGetUrsulas after per-field decode:
each input-capable field is present exactly when its key was in the raw
input (quantity is required, the two lists optional). -/
structure SchemaData where
  quantity : Option Nat
  include_ursulas : Option (List String)
  exclude_ursulas : Option (List String)
  deriving DecidableEq, Repr

/-- The input-capable field names of AliceGetUrsulas, in declaration order
(`ursulas` is dump_only and takes no part in load). -/
def aliceInputFieldNames : List String :=
  ["quantity", "exclude_ursulas", "include_ursulas"]

/-- Steps 1-2 of the load algorithm for AliceGetUrsulas: every missing
required field and every failing decode is recorded, none aborts the
others.  The collection over marshmallow's field machinery is modelled
from the spec (§4.2 steps 1-3); the field declarations themselves are
translated from src/porter/schema.py lines 64-99. -/
def aliceFieldErrors (raw : RawInput) : List (String × String) :=
  ([("quantity", fieldIssue true decodePositiveInteger (List.lookup "quantity" raw)),
    ("exclude_ursulas", fieldIssue false decodeUrsulaList (List.lookup "exclude_ursulas" raw)),
    ("include_ursulas", fieldIssue false decodeUrsulaList (List.lookup "include_ursulas" raw))]
   ).filterMap fun p => p.2.map fun e => (p.1, e)

/-- The loaded field mapping of a per-field-valid AliceGetUrsulas input. -/
def aliceData (raw : RawInput) : SchemaData :=
  { quantity := fieldValue decodePositiveInteger (List.lookup "quantity" raw)
    include_ursulas := fieldValue decodeUrsulaList (List.lookup "include_ursulas" raw)
    exclude_ursulas := fieldValue decodeUrsulaList (List.lookup "exclude_ursulas" raw) }

/-- Translated from src/porter/schema.py lines 104-110
(`AliceGetUrsulas.check_valid_quantity_and_include_ursulas`):
`data.get('include_ursulas')` is truthy only for a present non-empty list;
only then is `data['quantity']` looked up (a KeyError if absent), and the
rule raises InvalidArgumentCombo when the include length exceeds it. -/
def check_valid_quantity_and_include_ursulas (data : SchemaData) :
    Except LoadError Unit :=
  match data.include_ursulas with
  | none => .ok ()
  | some xs =>
    if xs.isEmpty then .ok ()
    else
      match data.quantity with
      | none => .error (.keyError "quantity")
      | some q =>
        if q < xs.length then .error (.invalidArgumentCombo .includeExceedsQuantity)
        else .ok ()

/-- Translated from src/porter/schema.py lines 112-119
(`AliceGetUrsulas.check_include_and_exclude_are_mutually_exclusive`):
both lists default to empty when absent (`or []`), and the rule raises
InvalidArgumentCombo naming `set(include).intersection(exclude)` when that
intersection is non-empty. -/
def check_include_and_exclude_are_mutually_exclusive (data : SchemaData) :
    Except LoadError Unit :=
  let toInclude := data.include_ursulas.getD []
  let toExclude := data.exclude_ursulas.getD []
  let common := toInclude.toFinset ∩ toExclude.toFinset
  if 0 < common.card then .error (.invalidArgumentCombo (.commonEntries common))
  else .ok ()

/-- Step 4 of the load algorithm for AliceGetUrsulas: the two
`validates_schema` rules run in declaration order, and the first failure
aborts (the raised InvalidArgumentCombo is not a marshmallow
ValidationError, so it propagates immediately). -/
def aliceValidatesSchema (data : SchemaData) : Except LoadError Unit :=
  match check_valid_quantity_and_include_ursulas data with
  | .error e => .error e
  | .ok _ => check_include_and_exclude_are_mutually_exclusive data

/-- The unknown part of a raw input: entries whose key is no declared
input-capable field of AliceGetUrsulas. -/
def unknownPart (raw : RawInput) : RawInput :=
  List.filter (fun p => !(aliceInputFieldNames.contains p.1)) raw

/-- The known part of a raw input: entries whose key is a declared
input-capable field of AliceGetUrsulas. -/
def knownPart (raw : RawInput) : RawInput :=
  List.filter (fun p => aliceInputFieldNames.contains p.1) raw

/-- The result of a successful load: the decoded declared fields together
with the unknown entries passed through by `Meta.unknown = INCLUDE`. -/
structure LoadedRequest where
  data : SchemaData
  extra : RawInput
  deriving DecidableEq

/-- `AliceGetUrsulas().load(raw)`: collect every per-field error and fail
with the aggregate if any (re-raised as InvalidInputData by
`BaseSchema.handle_error`, src/porter/schema.py lines 37-38); otherwise run
the cross-field rules in declaration order, aborting on the first failure;
otherwise return the loaded fields plus the passed-through unknown keys
(`Meta.unknown = INCLUDE`, lines 34-35).  The pipeline shape is modelled
from the spec §4.2; every porter-specific piece is translated from src/. -/
def loadAliceGetUrsulas (raw : RawInput) : Except LoadError LoadedRequest :=
  let errs := aliceFieldErrors raw
  if errs.isEmpty then
    let data := aliceData raw
    match aliceValidatesSchema data with
    | .error e => .error e
    | .ok _ => .ok ⟨data, unknownPart raw⟩
  else .error (.invalidInputData errs)

/-- The raw-input mapping for AliceGetUrsulas as a JSON payload supplies it:
the three declared keys with the given logical values. -/
def aliceJsonRawInput (q : Int) (toInclude toExclude : List String) : RawInput :=
  [("quantity", .int q),
   ("include_ursulas", .strList toInclude),
   ("exclude_ursulas", .strList toExclude)]

/-- Modelled from the spec: the Dual Surface Adapter (§4.3) assembles the
values parsed from the declared click options (--quantity, --exclude-ursula
repeatable, --include-ursula repeatable; the CLI assembly code is not under
src/) into the same raw-input mapping shape the JSON path consumes, keyed by
the canonical field names in click declaration order. -/
def aliceCliRawInput (q : Int) (toInclude toExclude : List String) : RawInput :=
  [("quantity", .int q),
   ("exclude_ursulas", .strList toExclude),
   ("include_ursulas", .strList toInclude)]

/-- The input-capable field names of BobRetrieveCFrags in declaration order
(src/porter/schema.py lines 130-187); the first five are required, `context`
is optional. -/
def bobInputFieldNames : List String :=
  ["treasure_map", "retrieval_kits", "alice_verifying_key",
   "bob_encrypting_key", "bob_verifying_key", "context"]

/-- Steps 1-2 of the load algorithm for BobRetrieveCFrags.  The field
declarations (names, required flags) are translated from
src/porter/schema.py lines 130-187; the decoders for treasure maps,
retrieval kits, keys and the context JSON live outside src/ and are taken
as parameters. -/
def bobFieldErrors (decTm decKit decKey decCtx : RawValue → Except String Unit)
    (raw : RawInput) : List (String × String) :=
  ([("treasure_map", fieldIssue true decTm (List.lookup "treasure_map" raw)),
    ("retrieval_kits", fieldIssue true decKit (List.lookup "retrieval_kits" raw)),
    ("alice_verifying_key", fieldIssue true decKey (List.lookup "alice_verifying_key" raw)),
    ("bob_encrypting_key", fieldIssue true decKey (List.lookup "bob_encrypting_key" raw)),
    ("bob_verifying_key", fieldIssue true decKey (List.lookup "bob_verifying_key" raw)),
    ("context", fieldIssue false decCtx (List.lookup "context" raw))]
   ).filterMap fun p => p.2.map fun e => (p.1, e)

/-- The error a field decode surfaces: `TreasureMap._deserialize` only ever
raises InvalidInputData. -/
inductive FieldError
  | invalidInputData (msg : String)
  deriving DecidableEq

/-- Translated from src/porter/fields/treasuremap.py lines 26-31
(`TreasureMap._deserialize`): run the base class decode
(`Base64BytesRepresentation._deserialize`, not under src/, taken as the
parameter `superDeserialize`) and then the domain parser
(`nucypher_core.TreasureMap.from_bytes`, an external collaborator, the
parameter `from_bytes`); any failure of either is caught and re-raised as
InvalidInputData carrying the field name and the original message. -/
def treasureMap_deserialize {α : Type} (name : String)
    (superDeserialize : RawValue → Except String (List Nat))
    (from_bytes : List Nat → Except String α)
    (value : RawValue) : Except FieldError α :=
  match superDeserialize value with
  | .error e =>
    .error (.invalidInputData
      ("Could not convert input for " ++ name ++ " to a TreasureMap: " ++ e))
  | .ok treasure_map_bytes =>
    match from_bytes treasure_map_bytes with
    | .error e =>
      .error (.invalidInputData
        ("Could not convert input for " ++ name ++ " to a TreasureMap: " ++ e))
    | .ok tm => .ok tm

lemma decodeEach_ursula_ok (xs : List String) :
    decodeEach decodeUrsulaChecksumAddress xs = .ok xs := by
  induction xs with
  | nil => rfl
  | cons s rest ih => simp [decodeEach, decodeUrsulaChecksumAddress, ih]

lemma decodeUrsulaList_ok (xs : List String) :
    decodeUrsulaList (.strList xs) = .ok xs := by
  simp [decodeUrsulaList, decodeStringList, decodeEach_ursula_ok]

lemma decodePositiveInteger_pos {q : Int} (hq : 0 < q) :
    decodePositiveInteger (.int q) = .ok q.toNat := by
  simp [decodePositiveInteger, hq]

lemma aliceFieldErrors_json (q : Int) (inc exc : List String) (hq : 0 < q) :
    aliceFieldErrors (aliceJsonRawInput q inc exc) = [] := by
  simp [aliceFieldErrors, aliceJsonRawInput, List.lookup, fieldIssue,
    decodePositiveInteger_pos hq, decodeUrsulaList_ok]

lemma aliceData_json (q : Int) (inc exc : List String) (hq : 0 < q) :
    aliceData (aliceJsonRawInput q inc exc) = ⟨some q.toNat, some inc, some exc⟩ := by
  simp [aliceData, aliceJsonRawInput, List.lookup, fieldValue,
    decodePositiveInteger_pos hq, decodeUrsulaList_ok, Except.toOption]

lemma aliceValidatesSchema_char (qn : Nat) (inc exc : List String) :
    aliceValidatesSchema ⟨some qn, some inc, some exc⟩ =
      if inc ≠ [] ∧ qn < inc.length then
        .error (.invalidArgumentCombo .includeExceedsQuantity)
      else if 0 < (inc.toFinset ∩ exc.toFinset).card then
        .error (.invalidArgumentCombo (.commonEntries (inc.toFinset ∩ exc.toFinset)))
      else .ok () := by
  by_cases h1 : inc = []
  · subst h1
    simp [aliceValidatesSchema, check_valid_quantity_and_include_ursulas,
      check_include_and_exclude_are_mutually_exclusive]
  · by_cases h2 : qn < inc.length
    · simp [aliceValidatesSchema, check_valid_quantity_and_include_ursulas,
        List.isEmpty_iff, h1, h2]
    · simp [aliceValidatesSchema, check_valid_quantity_and_include_ursulas,
        check_include_and_exclude_are_mutually_exclusive, List.isEmpty_iff, h1, h2]

lemma loadAlice_json_char (q : Int) (inc exc : List String) (hq : 0 < q) :
    loadAliceGetUrsulas (aliceJsonRawInput q inc exc) =
      if inc ≠ [] ∧ q.toNat < inc.length then
        .error (.invalidArgumentCombo .includeExceedsQuantity)
      else if 0 < (inc.toFinset ∩ exc.toFinset).card then
        .error (.invalidArgumentCombo (.commonEntries (inc.toFinset ∩ exc.toFinset)))
      else .ok ⟨⟨some q.toNat, some inc, some exc⟩, []⟩ := by
  have h1 := aliceFieldErrors_json q inc exc hq
  have h2 := aliceData_json q inc exc hq
  have h3 : unknownPart (aliceJsonRawInput q inc exc) = [] := rfl
  unfold loadAliceGetUrsulas
  rw [h1, h2, h3]
  simp only [aliceValidatesSchema_char, List.isEmpty_nil]
  by_cases hc1 : inc ≠ [] ∧ q.toNat < inc.length
  · simp [hc1]
  · by_cases hc2 : 0 < (inc.toFinset ∩ exc.toFinset).card
    · simp [hc1, hc2]
    · simp [hc1, hc2]

/-- C1 (counterexample): with quantity = 5 and include = exclude = [A], per-field
validation passes, the include list is present and non-empty, and its length (1)
is not greater than quantity, yet load still fails with InvalidArgumentCombo
(the disjointness rule's) — refuting the claimed only-if direction. -/
theorem include_within_quantity_still_combo_error :
    loadAliceGetUrsulas (aliceJsonRawInput 5 ["A"] ["A"]) =
      .error (.invalidArgumentCombo (.commonEntries {"A"}))
    ∧ ["A"].length ≤ (5 : Int).toNat := by
  constructor
  · decide
  · decide

/-- C1 (amended): with include present and non-empty and per-field validation
passed, load fails with the quantity rule's InvalidArgumentCombo
(include-exceeds-quantity) iff the include length strictly exceeds quantity;
and when the length is within quantity and the include and exclude sets are
disjoint, load succeeds.  In particular quantity = 2 with a 3-entry include
fails and quantity = 3 with the same list succeeds (witness). -/
theorem include_exceeds_quantity_error_iff (q : Int) (inc exc : List String)
    (hq : 0 < q) (hinc : inc ≠ []) :
    (loadAliceGetUrsulas (aliceJsonRawInput q inc exc) =
       .error (.invalidArgumentCombo .includeExceedsQuantity) ↔ q.toNat < inc.length)
    ∧ (inc.length ≤ q.toNat → inc.toFinset ∩ exc.toFinset = ∅ →
        loadAliceGetUrsulas (aliceJsonRawInput q inc exc) =
          .ok ⟨⟨some q.toNat, some inc, some exc⟩, []⟩) := by
  rw [loadAlice_json_char q inc exc hq]
  constructor
  · constructor
    · intro h
      by_cases h2 : q.toNat < inc.length
      · exact h2
      · exfalso
        simp [hinc, h2] at h
        split at h <;> simp_all
    · intro h2
      simp [hinc, h2]
  · intro hle hdisj
    have h2 : ¬ q.toNat < inc.length := not_lt.mpr hle
    simp [hinc, h2, hdisj]

/-- C1 witness: the spec's two concrete examples, obtained from the amended
theorem at quantity 2 and 3 with include [A, B, C]. -/
theorem include_exceeds_quantity_error_iff_witness :
    loadAliceGetUrsulas (aliceJsonRawInput 2 ["A","B","C"] []) =
      .error (.invalidArgumentCombo .includeExceedsQuantity)
    ∧ loadAliceGetUrsulas (aliceJsonRawInput 3 ["A","B","C"] []) =
      .ok ⟨⟨some 3, some ["A","B","C"], some []⟩, []⟩ :=
  ⟨((include_exceeds_quantity_error_iff 2 ["A","B","C"] [] (by decide) (by decide)).1).mpr
      (by decide),
   (include_exceeds_quantity_error_iff 3 ["A","B","C"] [] (by decide) (by decide)).2
      (by decide) (by decide)⟩

/-- C2 (counterexample): with quantity = 1, include = [A, B] and exclude = [C],
per-field validation passes and the two lists are disjoint, yet load fails
with InvalidArgumentCombo (the quantity rule's) — refuting the claimed
only-if direction. -/
theorem disjoint_lists_still_combo_error :
    loadAliceGetUrsulas (aliceJsonRawInput 1 ["A","B"] ["C"]) =
      .error (.invalidArgumentCombo .includeExceedsQuantity)
    ∧ ["A","B"].toFinset ∩ ["C"].toFinset = ∅ := by
  constructor
  · decide
  · decide

/-- C2 (amended): after per-field validation has passed, and provided the
quantity rule has not already failed (it runs first), load fails with
InvalidArgumentCombo naming exactly the set of elements common to
include_ursulas and exclude_ursulas iff that set is non-empty; with a
disjoint pair the load succeeds. -/
theorem common_entries_error_iff (q : Int) (inc exc : List String)
    (hq : 0 < q) (hfirst : ¬(inc ≠ [] ∧ q.toNat < inc.length)) :
    (loadAliceGetUrsulas (aliceJsonRawInput q inc exc) =
       .error (.invalidArgumentCombo (.commonEntries (inc.toFinset ∩ exc.toFinset)))
     ↔ (inc.toFinset ∩ exc.toFinset).Nonempty)
    ∧ (inc.toFinset ∩ exc.toFinset = ∅ →
        loadAliceGetUrsulas (aliceJsonRawInput q inc exc) =
          .ok ⟨⟨some q.toNat, some inc, some exc⟩, []⟩) := by
  rw [loadAlice_json_char q inc exc hq]
  constructor
  · by_cases hc : 0 < (inc.toFinset ∩ exc.toFinset).card
    · simp [hfirst, hc, Finset.card_pos.mp hc]
    · simp only [hfirst, hc, if_neg, if_false]
      constructor
      · intro h
        simp at h
      · intro h
        exact absurd (Finset.card_pos.mpr h) hc
  · intro hdisj
    simp [hfirst, hdisj]

/-- C2 witness: include [A, B] and exclude [B, C] fail identifying exactly the
set containing B, obtained from the amended theorem at quantity 2. -/
theorem common_entries_error_iff_witness :
    loadAliceGetUrsulas (aliceJsonRawInput 2 ["A","B"] ["B","C"]) =
      .error (.invalidArgumentCombo (.commonEntries {"B"})) := by
  have h := (common_entries_error_iff 2 ["A","B"] ["B","C"] (by decide) (by decide)).1.mpr
    (by decide)
  have he : (["A","B"].toFinset ∩ ["B","C"].toFinset : Finset String) = {"B"} := by decide
  rw [he] at h
  exact h

/-- C4: cross-field rules are evaluated in declaration order and abort on the
first failure — whenever the quantity-vs-include rule fails, load fails with
exactly that rule's InvalidArgumentCombo and never with the disjointness
rule's common-entries error, for every exclude list (even one that overlaps
the include list). -/
theorem cross_field_rules_abort_on_first (q : Int) (inc exc : List String)
    (hq : 0 < q) (hinc : inc ≠ []) (hlen : q.toNat < inc.length) :
    loadAliceGetUrsulas (aliceJsonRawInput q inc exc) =
      .error (.invalidArgumentCombo .includeExceedsQuantity)
    ∧ ∀ s, loadAliceGetUrsulas (aliceJsonRawInput q inc exc) ≠
        .error (.invalidArgumentCombo (.commonEntries s)) := by
  rw [loadAlice_json_char q inc exc hq]
  simp [hinc, hlen]

/-- C4 witness: quantity 1 with include [A, B] and the overlapping exclude [A]
reports only the quantity rule's error. -/
theorem cross_field_rules_abort_on_first_witness :
    loadAliceGetUrsulas (aliceJsonRawInput 1 ["A","B"] ["A"]) =
      .error (.invalidArgumentCombo .includeExceedsQuantity)
    ∧ loadAliceGetUrsulas (aliceJsonRawInput 1 ["A","B"] ["A"]) ≠
      .error (.invalidArgumentCombo (.commonEntries {"A"})) :=
  ⟨(cross_field_rules_abort_on_first 1 ["A","B"] ["A"] (by decide) (by decide) (by decide)).1,
   (cross_field_rules_abort_on_first 1 ["A","B"] ["A"] (by decide) (by decide) (by decide)).2
     {"A"}⟩

lemma rule1_not_input_error (d : SchemaData) (m : List (String × String)) :
    check_valid_quantity_and_include_ursulas d ≠ .error (.invalidInputData m) := by
  unfold check_valid_quantity_and_include_ursulas
  (repeat' split) <;> simp

lemma rule2_not_input_error (d : SchemaData) (m : List (String × String)) :
    check_include_and_exclude_are_mutually_exclusive d ≠ .error (.invalidInputData m) := by
  unfold check_include_and_exclude_are_mutually_exclusive
  dsimp only
  split <;> simp

lemma aliceValidatesSchema_no_input_error (data : SchemaData)
    (m : List (String × String)) :
    aliceValidatesSchema data ≠ .error (.invalidInputData m) := by
  intro h
  unfold aliceValidatesSchema at h
  cases hv : check_valid_quantity_and_include_ursulas data with
  | error e =>
    rw [hv] at h
    simp at h
    exact rule1_not_input_error data m (by rw [hv, h])
  | ok u =>
    rw [hv] at h
    exact rule2_not_input_error data m (by simpa using h)

/-- C3: per-field failures are collected, not aborted on the first one: load
fails with the single InvalidInputData aggregate carrying exactly the list of
per-field errors iff that list is non-empty, and no other load outcome carries
InvalidInputData; a raw input missing the required quantity and carrying an
undecodable include list is charged with both errors at once; and with every
required field of BobRetrieveCFrags missing, the aggregate names exactly those
five fields (and not the optional context), for any field decoders. -/
theorem per_field_errors_collected :
    (∀ raw : RawInput, aliceFieldErrors raw ≠ [] →
       loadAliceGetUrsulas raw = .error (.invalidInputData (aliceFieldErrors raw)))
    ∧ (∀ (raw : RawInput) (m : List (String × String)),
        loadAliceGetUrsulas raw = .error (.invalidInputData m) →
          m = aliceFieldErrors raw ∧ m ≠ [])
    ∧ aliceFieldErrors [("include_ursulas", RawValue.int 5)] =
        [("quantity", missingMsg), ("include_ursulas", "Not a valid list.")]
    ∧ (∀ decTm decKit decKey decCtx : RawValue → Except String Unit,
        bobFieldErrors decTm decKit decKey decCtx [] =
          [("treasure_map", missingMsg), ("retrieval_kits", missingMsg),
           ("alice_verifying_key", missingMsg), ("bob_encrypting_key", missingMsg),
           ("bob_verifying_key", missingMsg)]) := by
  refine ⟨?_, ?_, by decide, fun _ _ _ _ => rfl⟩
  · intro raw h
    have hne : ¬((aliceFieldErrors raw).isEmpty = true) := by
      simpa [List.isEmpty_iff] using h
    simp [loadAliceGetUrsulas, hne]
  · intro raw m h
    by_cases he : (aliceFieldErrors raw).isEmpty = true
    · cases hv : aliceValidatesSchema (aliceData raw) with
      | error e =>
        simp [loadAliceGetUrsulas, he, hv] at h
        exact absurd hv (by rw [h]; exact aliceValidatesSchema_no_input_error _ m)
      | ok u => simp [loadAliceGetUrsulas, he, hv] at h
    · simp [loadAliceGetUrsulas, he] at h
      refine ⟨h.symm, ?_⟩
      rw [← h]
      simpa [List.isEmpty_iff] using he

lemma lookup_filter (p : String × RawValue → Bool) (raw : List (String × RawValue))
    (n : String) (h : ∀ v, p (n, v) = true) :
    List.lookup n (List.filter p raw) = List.lookup n raw := by
  induction raw with
  | nil => rfl
  | cons kv rest ih =>
    obtain ⟨k, v⟩ := kv
    by_cases hk : n = k
    · subst hk
      simp [List.filter_cons, h v, List.lookup]
    · have hbeq : (n == k) = false := beq_eq_false_iff_ne.mpr hk
      by_cases hp : p (k, v) = true
      · simp [List.filter_cons, hp, List.lookup, hbeq, ih]
      · simp [List.filter_cons, hp, List.lookup, hbeq, ih]

lemma knownPart_lookup (raw : RawInput) (n : String)
    (hn : aliceInputFieldNames.contains n = true) :
    List.lookup n (knownPart raw) = List.lookup n raw :=
  lookup_filter _ raw n (fun _ => hn)

lemma aliceFieldErrors_knownPart (raw : RawInput) :
    aliceFieldErrors (knownPart raw) = aliceFieldErrors raw := by
  unfold aliceFieldErrors
  rw [knownPart_lookup raw "quantity" (by decide),
    knownPart_lookup raw "exclude_ursulas" (by decide),
    knownPart_lookup raw "include_ursulas" (by decide)]

lemma aliceData_knownPart (raw : RawInput) :
    aliceData (knownPart raw) = aliceData raw := by
  unfold aliceData
  rw [knownPart_lookup raw "quantity" (by decide),
    knownPart_lookup raw "exclude_ursulas" (by decide),
    knownPart_lookup raw "include_ursulas" (by decide)]

lemma unknownPart_knownPart (raw : RawInput) :
    unknownPart (knownPart raw) = [] := by
  unfold unknownPart knownPart
  simp [List.filter_filter]

/-- C5: keys that correspond to no declared field never cause load to fail:
the per-field errors and decoded data of any raw input equal those of its
declared-keys-only restriction, load fails with an error iff the restriction
does (with the same error), and a successful load returns the unknown
entries passed through in its extra data. -/
theorem unknown_keys_passed_through (raw : RawInput) :
    aliceFieldErrors (knownPart raw) = aliceFieldErrors raw
    ∧ aliceData (knownPart raw) = aliceData raw
    ∧ (∀ e, loadAliceGetUrsulas raw = .error e ↔
        loadAliceGetUrsulas (knownPart raw) = .error e)
    ∧ (∀ lr, loadAliceGetUrsulas raw = .ok lr →
        lr.data = aliceData raw ∧ lr.extra = unknownPart raw) := by
  have h1 := aliceFieldErrors_knownPart raw
  have h2 := aliceData_knownPart raw
  have h3 := unknownPart_knownPart raw
  refine ⟨h1, h2, ?_, ?_⟩
  · intro e
    by_cases he : (aliceFieldErrors raw).isEmpty = true
    · cases hv : aliceValidatesSchema (aliceData raw) with
      | error e2 => simp [loadAliceGetUrsulas, h1, h2, h3, he, hv]
      | ok u => simp [loadAliceGetUrsulas, h1, h2, h3, he, hv]
    · simp [loadAliceGetUrsulas, h1, h2, h3, he]
  · intro lr h
    by_cases he : (aliceFieldErrors raw).isEmpty = true
    · cases hv : aliceValidatesSchema (aliceData raw) with
      | error e2 => simp [loadAliceGetUrsulas, he, hv] at h
      | ok u =>
        simp [loadAliceGetUrsulas, he, hv] at h
        rw [← h]
        exact ⟨rfl, rfl⟩
    · simp [loadAliceGetUrsulas, he] at h

/-- C5 witness: a payload with an unknown junk key loads successfully and
passes the junk entry through. -/
theorem unknown_keys_passed_through_witness :
    loadAliceGetUrsulas [("quantity", RawValue.int 2), ("junk", RawValue.str "x")] =
      .ok ⟨⟨some 2, none, none⟩, [("junk", RawValue.str "x")]⟩
    ∧ (⟨⟨some 2, none, none⟩, [("junk", RawValue.str "x")]⟩ : LoadedRequest).extra =
      unknownPart [("quantity", RawValue.int 2), ("junk", RawValue.str "x")] :=
  ⟨by decide,
   ((unknown_keys_passed_through
       [("quantity", RawValue.int 2), ("junk", RawValue.str "x")]).2.2.2
     ⟨⟨some 2, none, none⟩, [("junk", RawValue.str "x")]⟩ (by decide)).2⟩

/-- C6: for every raw value, base-class decoder and domain parser, TreasureMap
decode either succeeds or fails with InvalidInputData whose message embeds the
field name and the original failure's message (which is the inner decode's or
the parser's); the error type of the embedding has no other constructor, so no
other exception kind can propagate. -/
theorem treasure_map_decode_wraps_all_failures {α : Type} (name : String)
    (superDeserialize : RawValue → Except String (List Nat))
    (from_bytes : List Nat → Except String α) (value : RawValue) :
    (∃ tm, treasureMap_deserialize name superDeserialize from_bytes value = .ok tm)
    ∨ (∃ e, treasureMap_deserialize name superDeserialize from_bytes value =
          .error (.invalidInputData
            ("Could not convert input for " ++ name ++ " to a TreasureMap: " ++ e))
        ∧ (superDeserialize value = .error e
           ∨ ∃ bs, superDeserialize value = .ok bs ∧ from_bytes bs = .error e)) := by
  rcases hsup : superDeserialize value with e | bs
  · right
    exact ⟨e, by simp [treasureMap_deserialize, hsup], Or.inl rfl⟩
  · rcases hfb : from_bytes bs with e | tm
    · right
      exact ⟨e, by simp [treasureMap_deserialize, hsup, hfb], Or.inr ⟨bs, rfl, hfb⟩⟩
    · left
      exact ⟨tm, by simp [treasureMap_deserialize, hsup, hfb]⟩

/-- C7: when the optional include_ursulas field is absent from the loaded
data, neither cross-field rule fails, regardless of the quantity and
exclude_ursulas values (even an absent quantity); and a full load without an
include key succeeds. -/
theorem rules_skip_absent_include :
    (∀ data : SchemaData, data.include_ursulas = none →
       aliceValidatesSchema data = .ok ())
    ∧ (∀ (q : Int) (exc : List String), 0 < q →
        loadAliceGetUrsulas [("quantity", RawValue.int q),
            ("exclude_ursulas", RawValue.strList exc)] =
          .ok ⟨⟨some q.toNat, none, some exc⟩, []⟩) := by
  constructor
  · intro data h
    obtain ⟨qo, inco, exco⟩ := data
    simp only at h
    subst h
    simp [aliceValidatesSchema, check_valid_quantity_and_include_ursulas,
      check_include_and_exclude_are_mutually_exclusive]
  · intro q exc hq
    have herr : aliceFieldErrors
        [("quantity", RawValue.int q), ("exclude_ursulas", RawValue.strList exc)] = [] := by
      simp [aliceFieldErrors, List.lookup, fieldIssue,
        decodePositiveInteger_pos hq, decodeUrsulaList_ok]
    have hdata : aliceData
        [("quantity", RawValue.int q), ("exclude_ursulas", RawValue.strList exc)] =
        ⟨some q.toNat, none, some exc⟩ := by
      simp [aliceData, List.lookup, fieldValue,
        decodePositiveInteger_pos hq, decodeUrsulaList_ok, Except.toOption]
    simp [loadAliceGetUrsulas, herr, hdata, aliceValidatesSchema,
      check_valid_quantity_and_include_ursulas,
      check_include_and_exclude_are_mutually_exclusive]
    rfl

/-- C7 witness: rules pass on data with no include field even with quantity
also absent, and a payload without include loads successfully. -/
theorem rules_skip_absent_include_witness :
    aliceValidatesSchema ⟨none, none, some ["X"]⟩ = .ok ()
    ∧ loadAliceGetUrsulas [("quantity", RawValue.int 7),
          ("exclude_ursulas", RawValue.strList ["X"])] =
        .ok ⟨⟨some 7, none, some ["X"]⟩, []⟩ :=
  ⟨rules_skip_absent_include.1 ⟨none, none, some ["X"]⟩ rfl,
   rules_skip_absent_include.2 7 ["X"] (by decide)⟩

/-- C8: the same logical parameter values supplied once as a JSON payload and
once as the CLI-assembled raw-input mapping (whose keys follow the click
declaration order) give identical load results — the same LoadedRequest on
success and the same error otherwise. -/
theorem cli_and_json_loads_agree (q : Int) (toInclude toExclude : List String) :
    loadAliceGetUrsulas (aliceCliRawInput q toInclude toExclude) =
      loadAliceGetUrsulas (aliceJsonRawInput q toInclude toExclude) := rfl

/-- C9: the quantity-vs-include rule treats an empty include list like an
absent one — for data whose include_ursulas is absent or the empty list, the
rule returns ok for every quantity value, including the absent quantity on
which the rule's `data['quantity']` lookup would raise KeyError. -/
theorem empty_include_rule_never_raises (data : SchemaData)
    (h : data.include_ursulas = none ∨ data.include_ursulas = some []) :
    check_valid_quantity_and_include_ursulas data = .ok () := by
  obtain ⟨qo, inco, exco⟩ := data
  rcases h with h | h <;> (simp only at h; subst h; rfl)

/-- C9 witness: the rule passes on an empty include list even with quantity
absent. -/
theorem empty_include_rule_never_raises_witness :
    check_valid_quantity_and_include_ursulas ⟨none, some [], some ["X"]⟩ = .ok () :=
  empty_include_rule_never_raises ⟨none, some [], some ["X"]⟩ (Or.inr rfl)

/-- C10 (counterexample): duplicating the entries of include_ursulas — which
leaves its element set unchanged — flips load from success to failure with
InvalidArgumentCombo, because the quantity rule depends on the list length;
refuting the claim that duplication never changes whether load fails. -/
theorem duplication_changes_load_outcome :
    ["A","B"].toFinset = ["A","A","B","B"].toFinset
    ∧ loadAliceGetUrsulas (aliceJsonRawInput 2 ["A","B"] ["C"]) =
        .ok ⟨⟨some 2, some ["A","B"], some ["C"]⟩, []⟩
    ∧ loadAliceGetUrsulas (aliceJsonRawInput 2 ["A","A","B","B"] ["C"]) =
        .error (.invalidArgumentCombo .includeExceedsQuantity) :=
  ⟨by decide, by decide, by decide⟩

/-- C10 (amended): the disjointness rule itself depends only on the element
sets — equal include and exclude sets give identical rule outcomes, including
the named common set — and permuting entries (which preserves both sets and
lengths) never changes which error load fails with; duplication, however, can
change the quantity rule's outcome (see the counterexample). -/
theorem disjointness_rule_set_invariant :
    (∀ d d' : SchemaData,
       (d.include_ursulas.getD []).toFinset = (d'.include_ursulas.getD []).toFinset →
       (d.exclude_ursulas.getD []).toFinset = (d'.exclude_ursulas.getD []).toFinset →
       check_include_and_exclude_are_mutually_exclusive d =
         check_include_and_exclude_are_mutually_exclusive d')
    ∧ (∀ (q : Int) (inc inc2 exc exc2 : List String), 0 < q →
        inc.Perm inc2 → exc.Perm exc2 →
        ∀ e, loadAliceGetUrsulas (aliceJsonRawInput q inc exc) = .error e ↔
             loadAliceGetUrsulas (aliceJsonRawInput q inc2 exc2) = .error e) := by
  constructor
  · intro d d2 hi he
    unfold check_include_and_exclude_are_mutually_exclusive
    dsimp only
    rw [hi, he]
  · intro q inc inc2 exc exc2 hq hpi hpe e
    rw [loadAlice_json_char q inc exc hq, loadAlice_json_char q inc2 exc2 hq]
    have hlen : inc.length = inc2.length := hpi.length_eq
    have hif : inc.toFinset = inc2.toFinset := List.toFinset_eq_of_perm inc inc2 hpi
    have hef : exc.toFinset = exc2.toFinset := List.toFinset_eq_of_perm exc exc2 hpe
    have h1 : (inc ≠ [] ∧ q.toNat < inc.length) =
        (inc2 ≠ [] ∧ q.toNat < inc2.length) := by
      rw [← List.length_pos, ← List.length_pos, hlen]
    by_cases hc : inc2 ≠ [] ∧ q.toNat < inc2.length
    · have hc1 : inc ≠ [] ∧ q.toNat < inc.length := by rw [h1]; exact hc
      rw [if_pos hc1, if_pos hc]
    · have hc1 : ¬(inc ≠ [] ∧ q.toNat < inc.length) := by rw [h1]; exact hc
      rw [if_neg hc1, if_neg hc, hif, hef]
      by_cases hc2 : 0 < (inc2.toFinset ∩ exc2.toFinset).card
      · rw [if_pos hc2, if_pos hc2]
      · rw [if_neg hc2, if_neg hc2]
        simp

/-- C3 witness: with an empty raw input, AliceGetUrsulas fails naming its one
required field, and BobRetrieveCFrags charges exactly its five required
fields, instantiated at trivial decoders. -/
theorem per_field_errors_collected_witness :
    loadAliceGetUrsulas [] = .error (.invalidInputData [("quantity", missingMsg)])
    ∧ bobFieldErrors (fun _ => .ok ()) (fun _ => .ok ()) (fun _ => .ok ())
        (fun _ => .ok ()) [] =
      [("treasure_map", missingMsg), ("retrieval_kits", missingMsg),
       ("alice_verifying_key", missingMsg), ("bob_encrypting_key", missingMsg),
       ("bob_verifying_key", missingMsg)] :=
  ⟨per_field_errors_collected.1 [] (by decide),
   per_field_errors_collected.2.2.2 (fun _ => .ok ()) (fun _ => .ok ())
     (fun _ => .ok ()) (fun _ => .ok ())⟩

/-- C10 witness: data with equal include and exclude sets but different list
representations get the same rule outcome, and a permuted include list leaves
the load error unchanged. -/
theorem disjointness_rule_set_invariant_witness :
    check_include_and_exclude_are_mutually_exclusive ⟨some 1, some ["A","B"], some ["B"]⟩ =
      check_include_and_exclude_are_mutually_exclusive
        ⟨some 9, some ["B","A","A"], some ["B","B"]⟩
    ∧ (loadAliceGetUrsulas (aliceJsonRawInput 2 ["A","B"] ["C"]) =
         .error (.invalidArgumentCombo .includeExceedsQuantity) ↔
       loadAliceGetUrsulas (aliceJsonRawInput 2 ["B","A"] ["C"]) =
         .error (.invalidArgumentCombo .includeExceedsQuantity)) :=
  ⟨disjointness_rule_set_invariant.1 ⟨some 1, some ["A","B"], some ["B"]⟩
     ⟨some 9, some ["B","A","A"], some ["B","B"]⟩ (by decide) (by decide),
   disjointness_rule_set_invariant.2 2 ["A","B"] ["B","A"] ["C"] ["C"] (by decide)
     (by decide) (by decide) (.invalidArgumentCombo .includeExceedsQuantity)⟩
